import Mathlib

/-!
Verification of the Kanso backend (`src/backend/main.py`) against its
natural-language specification.  The Python functions relevant to the
claims are embedded shallowly as executable Lean definitions:

* `_parse_resume_text`  → `Kanso.parseResumeText`
* `_invoke_with_retry`  → `Kanso.invokeWithRetry`
* the interview websocket handler → `Kanso.runSession` / `Kanso.handleMsg`
* `tailor_resume` (DB-write part), `_reset_stuck_processing`,
  `register`, `hr_post_job` (notification fan-out) → small record models.
-/

namespace Kanso

/-! ## Python string primitives -/

/-- ASCII whitespace stripped by Python `str.strip()` and matched by `\s`. -/
def pyWhitespace (c : Char) : Bool :=
  c == ' ' || c == '\t' || c == '\n' || c == '\r' || c == '\x0b' || c == '\x0c'

/-- Python `str.strip()` on a character list. -/
def stripL (l : List Char) : List Char :=
  ((l.dropWhile pyWhitespace).reverse.dropWhile pyWhitespace).reverse

/-- Python `str.strip()`. -/
def strip (s : String) : String := String.mk (stripL s.data)

/-- Python `str.split("\n")`: `""` gives `[""]`, separators are kept as
empty fragments. -/
def splitOnNl : List Char → List (List Char)
  | [] => [[]]
  | c :: rest =>
    let r := splitOnNl rest
    if c == '\n' then [] :: r
    else
      match r with
      | [] => [[c]]
      | h :: t => (c :: h) :: t

/-- Python `str.lower()` (ASCII fragment, as used by the retry wrapper). -/
def lowerL (l : List Char) : List Char := l.map Char.toLower

/-- `a` is a prefix of `b` (Boolean, on characters, exact case). -/
def startsWithL : List Char → List Char → Bool
  | [], _ => true
  | _ :: _, [] => false
  | a :: as, b :: bs => a == b && startsWithL as bs

/-- Python `needle in hay` substring test. -/
def containsSubL (needle : List Char) : List Char → Bool
  | [] => needle.isEmpty
  | c :: rest => startsWithL needle (c :: rest) || containsSubL needle rest

/-! ## Résumé segmenter (`_parse_resume_text`)

The heading regexes are embedded as token lists: a literal character
(matched case-insensitively, as under `(?i)`), an optional character
(`s?`), or `\s*`.  `re.match` anchors at the start of the string and
succeeds iff some alternative matches a prefix. -/

inductive PatTok where
  | lit (c : Char)
  | opt (c : Char)
  | wsStar
deriving DecidableEq, Repr

/-- `\s*` followed by the continuation `k`: try the continuation at every
position reachable by consuming whitespace (backtracking as the regex
engine does). -/
def wsLoop (k : List Char → Bool) : List Char → Bool
  | [] => k []
  | x :: xs => k (x :: xs) || (pyWhitespace x && wsLoop k xs)

/-- Anchored regex matching for the fragment used by the section
patterns: does the token list match some prefix of `xs`? -/
def matchPat : List PatTok → List Char → Bool
  | [], _ => true
  | PatTok.lit _ :: _, [] => false
  | PatTok.lit c :: ps, x :: xs => (x.toLower == c.toLower) && matchPat ps xs
  | PatTok.opt _ :: ps, [] => matchPat ps []
  | PatTok.opt c :: ps, x :: xs =>
      ((x.toLower == c.toLower) && matchPat ps xs) || matchPat ps (x :: xs)
  | PatTok.wsStar :: ps, xs => wsLoop (matchPat ps) xs

/-- Literal word as pattern tokens. -/
def lits (s : String) : List PatTok := s.data.map PatTok.lit

/-- `(?i)^(summary|about|profile|objective|professional\s*summary)` -/
def summaryPats : List (List PatTok) :=
  [lits "summary", lits "about", lits "profile", lits "objective",
   lits "professional" ++ [PatTok.wsStar] ++ lits "summary"]

/-- `(?i)^(experience|work\s*history|employment|professional\s*experience)` -/
def experiencePats : List (List PatTok) :=
  [lits "experience", lits "work" ++ [PatTok.wsStar] ++ lits "history",
   lits "employment", lits "professional" ++ [PatTok.wsStar] ++ lits "experience"]

/-- `(?i)^(education|academic|degrees|certifications?|qualifications?)` -/
def educationPats : List (List PatTok) :=
  [lits "education", lits "academic", lits "degrees",
   lits "certification" ++ [PatTok.opt 's'], lits "qualification" ++ [PatTok.opt 's']]

/-- `(?i)^(skills|technologies|technical\s*skills|competencies|expertise|tools)` -/
def skillsPats : List (List PatTok) :=
  [lits "skills", lits "technologies", lits "technical" ++ [PatTok.wsStar] ++ lits "skills",
   lits "competencies", lits "expertise", lits "tools"]

inductive ResumeSec where
  | header | summary | experience | education | skills
deriving DecidableEq, Repr

/-- The per-line heading test of `_parse_resume_text`: the patterns are
tried in dict order, and a match counts only when the stripped line is
shorter than 60 characters (`re.match(pat, s) and len(s) < 60`). -/
def headingMatch (s : List Char) : Option ResumeSec :=
  if summaryPats.any (fun p => matchPat p s) && s.length < 60 then some ResumeSec.summary
  else if experiencePats.any (fun p => matchPat p s) && s.length < 60 then some ResumeSec.experience
  else if educationPats.any (fun p => matchPat p s) && s.length < 60 then some ResumeSec.education
  else if skillsPats.any (fun p => matchPat p s) && s.length < 60 then some ResumeSec.skills
  else none

/-- Accumulated (stripped) lines per section, `sections` in the code. -/
structure SectionAcc where
  header : List (List Char)
  summary : List (List Char)
  experience : List (List Char)
  education : List (List Char)
  skills : List (List Char)
deriving DecidableEq, Repr

def SectionAcc.empty : SectionAcc := ⟨[], [], [], [], []⟩

def SectionAcc.push (acc : SectionAcc) (sec : ResumeSec) (s : List Char) : SectionAcc :=
  match sec with
  | ResumeSec.header => { acc with header := acc.header ++ [s] }
  | ResumeSec.summary => { acc with summary := acc.summary ++ [s] }
  | ResumeSec.experience => { acc with experience := acc.experience ++ [s] }
  | ResumeSec.education => { acc with education := acc.education ++ [s] }
  | ResumeSec.skills => { acc with skills := acc.skills ++ [s] }

/-- One iteration of the line walk: a heading line switches the cursor
and is not appended; any other line is appended (stripped) to the
current section. -/
def walkStep (st : ResumeSec × SectionAcc) (line : List Char) : ResumeSec × SectionAcc :=
  let s := stripL line
  match headingMatch s with
  | some sec => (sec, st.2)
  | none => (st.1, st.2.push st.1 s)

/-- The full line walk, starting from the pseudo-section `header`. -/
def walkLines (lines : List (List Char)) : ResumeSec × SectionAcc :=
  lines.foldl walkStep (ResumeSec.header, SectionAcc.empty)

/-- Delimiters of the skills split `re.split(r"[,•·|;\n]+", …)`. -/
def isSkillDelim (c : Char) : Bool :=
  c == ',' || c == '•' || c == '·' || c == '|' || c == ';' || c == '\n'

/-- `re.split(r"[,•·|;\n]+", text)`: split at maximal delimiter runs,
keeping empty fragments at the ends. -/
def splitDelimRuns : List Char → List (List Char)
  | [] => [[]]
  | c :: rest =>
    let r := splitDelimRuns rest
    if isSkillDelim c then
      match rest with
      | [] => [] :: r
      | d :: _ => if isSkillDelim d then r else [] :: r
    else
      match r with
      | [] => [[c]]
      | h :: t => (c :: h) :: t

/-- `[s.strip() for s in raw_skills if s.strip() and len(s.strip()) < 50]` -/
def extractSkills (text : List Char) : List String :=
  (((splitDelimRuns text).map stripL).filter
    (fun s => !s.isEmpty && decide (s.length < 50))).map (fun s => String.mk s)

/-- Result record of `_parse_resume_text`. -/
structure ResumeSections where
  headline : String
  bio : String
  skills : List String
  experience : String
  education : String
deriving DecidableEq, Repr

/-- Shallow embedding of `_parse_resume_text` (src/backend/main.py,
lines 513-554). -/
def parseResumeText (raw : String) : ResumeSections :=
  let lines := splitOnNl (stripL raw.data)
  let nonEmpty := (lines.map stripL).filter (fun l => !l.isEmpty)
  let headline := if 2 ≤ nonEmpty.length then String.mk (nonEmpty.getD 1 []) else ""
  let acc := (walkLines lines).2
  let summaryText := stripL (List.intercalate ['\n'] acc.summary)
  let experienceText := stripL (List.intercalate ['\n'] acc.experience)
  let educationText := stripL (List.intercalate ['\n'] acc.education)
  let skillsText := stripL (List.intercalate ['\n'] acc.skills)
  { headline := headline
    bio := String.mk summaryText
    skills := if skillsText.isEmpty then [] else extractSkills skillsText
    experience := String.mk experienceText
    education := String.mk educationText }

/-- The pattern group of each named section (`header` is the pseudo
section with no pattern). -/
def patsFor : ResumeSec → List (List PatTok)
  | ResumeSec.header => []
  | ResumeSec.summary => summaryPats
  | ResumeSec.experience => experiencePats
  | ResumeSec.education => educationPats
  | ResumeSec.skills => skillsPats

/-- The skills extraction as the specification words it: split on runs of
the delimiter set, trim each fragment, keep it iff it is non-empty and
shorter than 50 characters, preserving order and duplicates. -/
def skillsSpec (text : List Char) : List String :=
  ((splitDelimRuns text).map (fun f => String.mk (stripL f))).filter
    (fun s => decide (s ≠ "" ∧ s.length < 50))

/-- The non-empty-line subsequence (each line stripped), as computed by
`_parse_resume_text`. -/
def nonEmptyLines (raw : String) : List (List Char) :=
  ((splitOnNl (stripL raw.data)).map stripL).filter (fun l => !l.isEmpty)

/-! ## LLM invocation wrapper (`_invoke_with_retry`)

One call of `llm.ainvoke` is modelled by its outcome: a returned value or
a raised error carrying a message.  A whole run is driven by the outcome
sequence `outcome : Nat → Outcome` (the outcome of the `n`-th call). -/

inductive Outcome where
  | ok (v : String)
  | err (msg : String)
deriving DecidableEq, Repr

/-- `"429" in err_str or "resource exhausted" in err_str or "rate" in err_str`
where `err_str = str(e).lower()`. -/
def isRateLimitMsg (msg : String) : Bool :=
  let e := lowerL msg.data
  containsSubL "429".data e || containsSubL "resource exhausted".data e ||
    containsSubL "rate".data e

/-- Observable trace of one `_invoke_with_retry` run: the surfaced
outcome, the number of `llm.ainvoke` calls made, and the list of sleep
durations (seconds) in order. -/
structure RetryRun where
  result : Outcome
  callCount : Nat
  sleeps : List Nat
deriving DecidableEq, Repr

/-- The `for attempt in range(retries)` loop of `_invoke_with_retry`,
at loop index `attempt` with `remaining` iterations left; when the loop
is exhausted the code makes one final unguarded call whose outcome
surfaces as-is. -/
def retryLoop (outcome : Nat → Outcome) : Nat → Nat → RetryRun
  | attempt, 0 => { result := outcome attempt, callCount := 1, sleeps := [] }
  | attempt, remaining + 1 =>
    match outcome attempt with
    | Outcome.ok v => { result := Outcome.ok v, callCount := 1, sleeps := [] }
    | Outcome.err m =>
      if isRateLimitMsg m then
        let r := retryLoop outcome (attempt + 1) remaining
        { result := r.result, callCount := r.callCount + 1, sleeps := 2 ^ attempt :: r.sleeps }
      else { result := Outcome.err m, callCount := 1, sleeps := [] }

/-- `_invoke_with_retry(llm, prompt_or_messages, retries=3)`
(src/backend/main.py, lines 320-334). -/
def invokeWithRetry (outcome : Nat → Outcome) : RetryRun :=
  retryLoop outcome 0 3

/-! ## Interview websocket state machine (`interview_websocket`)

The LLM is an oracle `llm : List Turn → Option String` mapping the
conversation history at call time to `some reply` or `none` (a raised
exception).  Events are the JSON messages sent to the peer. -/

inductive Role where
  | system | user | assistant
deriving DecidableEq, Repr

structure Turn where
  role : Role
  content : String
deriving DecidableEq, Repr

inductive WsEvent where
  | connected
  | aiResponse (text : String)
  | interviewEnd
  | errorEvent
deriving DecidableEq, Repr

/-- Per-connection state: `conversation_history` and `question_count`. -/
structure IState where
  history : List Turn
  questionCount : Nat
deriving DecidableEq, Repr

/-- The synthetic greeting instruction appended before the first LLM call. -/
def greetingPrompt : String :=
  "Start the interview with a warm greeting. Do not introduce yourself with a name, just say hello and welcome the candidate, then ask the first interview question."

/-- The synthetic wrap-up instruction appended when `question_count >= 5`. -/
def closingPrompt : String :=
  "The interview is now complete. Please thank the candidate, give brief overall feedback on their performance, and say goodbye."

/-- The initial-greeting step: append the synthetic greeting turn, invoke
the LLM, and on success append the assistant turn, bump the counter and
emit one `ai_response`; on failure only the error is logged (no event). -/
def doGreeting (llm : List Turn → Option String) (st : IState) : IState × List WsEvent :=
  let hist := st.history ++ [⟨Role.user, greetingPrompt⟩]
  match llm hist with
  | none => ({ st with history := hist }, [])
  | some r =>
    let g := strip r
    ({ history := hist ++ [⟨Role.assistant, g⟩], questionCount := st.questionCount + 1 },
     [WsEvent.aiResponse g])

/-- Handling of one inbound `user_transcript` message (the body of
`handle_user_message`): blank transcripts are skipped; otherwise a user
turn is appended and the LLM invoked; on success the reply is appended
and emitted and the counter bumped; when the bumped counter reaches 5
the closing instruction is appended, the LLM invoked again, the closing
reply emitted (not appended to history) and `interview_end` emitted.
An invocation failure emits one `error` event. -/
def handleMsg (llm : List Turn → Option String) (st : IState) (transcript : String) :
    IState × List WsEvent :=
  let t := strip transcript
  if t = "" then (st, [])
  else
    let hist1 := st.history ++ [⟨Role.user, t⟩]
    match llm hist1 with
    | none => ({ st with history := hist1 }, [WsEvent.errorEvent])
    | some r =>
      let ai := strip r
      let hist2 := hist1 ++ [⟨Role.assistant, ai⟩]
      let qc := st.questionCount + 1
      if 5 ≤ qc then
        let hist3 := hist2 ++ [⟨Role.user, closingPrompt⟩]
        match llm hist3 with
        | none =>
          ({ history := hist3, questionCount := qc },
           [WsEvent.aiResponse ai, WsEvent.errorEvent])
        | some c =>
          ({ history := hist3, questionCount := qc },
           [WsEvent.aiResponse ai, WsEvent.aiResponse (strip c), WsEvent.interviewEnd])
      else ({ history := hist2, questionCount := qc }, [WsEvent.aiResponse ai])

/-- A whole session after a successful init payload: `connected` is sent,
the greeting step runs, then the inbound `user_transcript` messages are
processed strictly in order. -/
def runSession (llm : List Turn → Option String) (sysInstr : String) (msgs : List String) :
    IState × List WsEvent :=
  let st0 : IState := ⟨[⟨Role.system, sysInstr⟩], 0⟩
  let g := doGreeting llm st0
  msgs.foldl
    (fun acc m =>
      let r := handleMsg llm acc.1 m
      (r.1, acc.2 ++ r.2))
    (g.1, WsEvent.connected :: g.2)

def isAiResponse : WsEvent → Bool
  | WsEvent.aiResponse _ => true
  | _ => false

def isInterviewEnd : WsEvent → Bool
  | WsEvent.interviewEnd => true
  | _ => false

def countAi (evs : List WsEvent) : Nat := (evs.filter isAiResponse).length

def countEnd (evs : List WsEvent) : Nat := (evs.filter isInterviewEnd).length

/-! ## Background résumé generation (`tailor_resume`) and the startup
reset (`_reset_stuck_processing`)

Only the observable effect on the application record matters to the
claims; the record is modelled by its `status` and `tailored_resume`
fields. -/

structure ApplicationRec where
  status : String
  tailored_resume : String
deriving DecidableEq, Repr

/-- `generate_resume` flips the status to "processing" before
dispatching the background task (src/backend/main.py, lines 664-665). -/
def generateResumeMark (a : ApplicationRec) : ApplicationRec :=
  { a with status := "processing" }

/-- Python `content.split("\n", 1)[1]`: everything after the first
newline. -/
def afterFirstNl (l : List Char) : List Char :=
  (l.dropWhile (fun c => !(c == '\n'))).drop 1

def endsWithL (pat l : List Char) : Bool :=
  startsWithL pat.reverse l.reverse

/-- Python `str.replace` (non-overlapping, left to right) for a
non-empty needle; the fuel argument is the input length, enough for the
scan to finish. -/
def replaceSubFuel (needle repl : List Char) : Nat → List Char → List Char
  | _, [] => []
  | 0, l => l
  | fuel + 1, c :: rest =>
    if !needle.isEmpty && startsWithL needle (c :: rest) then
      repl ++ replaceSubFuel needle repl fuel ((c :: rest).drop needle.length)
    else c :: replaceSubFuel needle repl fuel rest

def replaceSub (needle repl hay : List Char) : List Char :=
  replaceSubFuel needle repl hay.length hay

/-- The markdown-fence stripping applied to the LLM reply in
`tailor_resume` (after the initial `.strip()`). -/
def stripFences (content : List Char) : List Char :=
  if startsWithL "```".data content then
    let c1 := if content.contains '\n' then afterFirstNl content else content.drop 3
    let c2 := if endsWithL "```".data c1 then c1.take (c1.length - 3) else c1
    stripL c2
  else content

/-- Full post-processing of a successful LLM reply in `tailor_resume`:
strip, strip markdown fences, remove `\begin{document}` and
`\end{document}`, strip again. -/
def postprocessContent (respContent : String) : String :=
  let c := stripL respContent.data
  let c := stripFences c
  let c := replaceSub "\\begin{document}".data [] c
  let c := replaceSub "\\end{document}".data [] c
  String.mk (stripL c)

def contentPlaceholder : String := "%% CONTENT_PLACEHOLDER"

/-- The record-writing tail of `tailor_resume`: `llmResult = none` models
the call raising (after retries), in which case `content = ""`; an empty
processed content returns without touching the record; otherwise the
template (a parameter here) has its placeholder replaced and the record
becomes "ready" (src/backend/main.py, lines 994-1023). -/
def tailorResumeUpdate (latexTemplate : String) (llmResult : Option String)
    (application : ApplicationRec) : ApplicationRec :=
  let content :=
    match llmResult with
    | none => ""
    | some r => postprocessContent r
  if content = "" then application
  else
    { status := "ready",
      tailored_resume :=
        String.mk (replaceSub contentPlaceholder.data content.data latexTemplate.data) }

/-- `_reset_stuck_processing` on one application row: rows with status
"processing" and an empty (or null) `tailored_resume` are reset to
"saved" (src/backend/main.py, lines 274-291). -/
def resetStuckProcessing (a : ApplicationRec) : ApplicationRec :=
  if a.status == "processing" && a.tailored_resume == "" then { a with status := "saved" }
  else a

/-! ## Registration and job-match notification fan-out -/

structure UserRec where
  name : String
  email : String
  role : String
  skills : List String
deriving DecidableEq, Repr

/-- The `role` field's declared default in `RegisterRequest`
(`role: str = "user"`). -/
def registerDefaultRole : String := "user"

/-- `register` (src/backend/main.py, lines 441-450): the user row is
created with the requested role verbatim; profile fields (among them
`skills`) start at their column defaults (empty). -/
def registerUser (name email role : String) : UserRec :=
  { name := name, email := email, role := role, skills := [] }

/-- `update_profile` writing the `skills` field. -/
def updateSkills (u : UserRec) (skills : List String) : UserRec :=
  { u with skills := skills }

/-- The notification rule of `hr_post_job` (src/backend/main.py, lines
1297-1317): a match notification is created for `u` iff the lowered tag
set is non-empty, `u.role == "seeker"`, and some lowered skill of `u` is
among the lowered tags. -/
def jobMatchNotified (jobTags : List String) (u : UserRec) : Bool :=
  let tags := jobTags.map (fun t => String.mk (lowerL t.data))
  !tags.isEmpty && u.role == "seeker" &&
    (u.skills.map (fun s => String.mk (lowerL s.data))).any (fun s => tags.contains s)

/-! # Theorems -/

/-! ## Helper lemmas about `retryLoop` -/

theorem retryLoop_exhaust (outcome : Nat → Outcome) (attempt : Nat) :
    retryLoop outcome attempt 0 =
      { result := outcome attempt, callCount := 1, sleeps := [] } := rfl

theorem retryLoop_errRate (outcome : Nat → Outcome) (attempt remaining : Nat) (m : String)
    (res : Outcome) (cc : Nat) (sl : List Nat)
    (hm : outcome attempt = Outcome.err m) (hr : isRateLimitMsg m = true)
    (hrec : retryLoop outcome (attempt + 1) remaining = { result := res, callCount := cc, sleeps := sl }) :
    retryLoop outcome attempt (remaining + 1) =
      { result := res, callCount := cc + 1, sleeps := 2 ^ attempt :: sl } := by
  simp [retryLoop, hm, hr, hrec]

theorem retryLoop_errOther (outcome : Nat → Outcome) (attempt remaining : Nat) (m : String)
    (hm : outcome attempt = Outcome.err m) (hr : isRateLimitMsg m = false) :
    retryLoop outcome attempt (remaining + 1) =
      { result := Outcome.err m, callCount := 1, sleeps := [] } := by
  simp [retryLoop, hm, hr]

theorem cons_pow_range (a k : Nat) :
    2 ^ a :: (List.range k).map (fun j => 2 ^ (a + 1 + j)) =
      (List.range (k + 1)).map (fun j => 2 ^ (a + j)) := by
  rw [List.range_succ_eq_map, List.map_cons, List.map_map]
  refine congrArg₂ List.cons (by rw [Nat.add_zero]) ?_
  refine List.map_congr_left ?_
  intro j _
  simp only [Function.comp_apply]
  congr 1
  omega

theorem retryLoop_allRate (outcome : Nat → Outcome) (remaining attempt : Nat)
    (h : ∀ j, j < remaining → ∃ m, outcome (attempt + j) = Outcome.err m ∧
      isRateLimitMsg m = true) :
    retryLoop outcome attempt remaining =
      { result := outcome (attempt + remaining), callCount := remaining + 1,
        sleeps := (List.range remaining).map (fun j => 2 ^ (attempt + j)) } := by
  induction remaining generalizing attempt with
  | zero => simp [retryLoop_exhaust]
  | succ n ih =>
    obtain ⟨m, hm, hr⟩ := h 0 (by omega)
    rw [Nat.add_zero] at hm
    have hrec := ih (attempt + 1) (fun j hj => by
      obtain ⟨m', hm', hr'⟩ := h (j + 1) (by omega)
      exact ⟨m', by rw [show attempt + 1 + j = attempt + (j + 1) from by omega]; exact hm', hr'⟩)
    rw [retryLoop_errRate outcome attempt n m _ _ _ hm hr hrec]
    rw [show attempt + 1 + n = attempt + (n + 1) from by omega]
    rw [cons_pow_range attempt n]

theorem retryLoop_stopsOther (outcome : Nat → Outcome) (k : Nat) (m : String)
    (remaining attempt : Nat) (hk : k < remaining)
    (hbefore : ∀ j, j < k → ∃ mj, outcome (attempt + j) = Outcome.err mj ∧
      isRateLimitMsg mj = true)
    (hm : outcome (attempt + k) = Outcome.err m) (hnr : isRateLimitMsg m = false) :
    retryLoop outcome attempt remaining =
      { result := Outcome.err m, callCount := k + 1,
        sleeps := (List.range k).map (fun j => 2 ^ (attempt + j)) } := by
  induction k generalizing attempt remaining with
  | zero =>
    obtain ⟨n, rfl⟩ : ∃ n, remaining = n + 1 := ⟨remaining - 1, by omega⟩
    rw [Nat.add_zero] at hm
    simp [retryLoop_errOther outcome attempt n m hm hnr]
  | succ p ih =>
    obtain ⟨n, rfl⟩ : ∃ n, remaining = n + 1 := ⟨remaining - 1, by omega⟩
    obtain ⟨m0, hm0, hr0⟩ := hbefore 0 (by omega)
    rw [Nat.add_zero] at hm0
    have hrec := ih n (attempt + 1) (by omega)
      (fun j hj => by
        obtain ⟨mj, hmj, hrj⟩ := hbefore (j + 1) (by omega)
        exact ⟨mj, by rw [show attempt + 1 + j = attempt + (j + 1) from by omega]; exact hmj, hrj⟩)
      (by rw [show attempt + 1 + p = attempt + (p + 1) from by omega]; exact hm)
    rw [retryLoop_errRate outcome attempt n m0 _ _ _ hm0 hr0 hrec]
    rw [cons_pow_range attempt p]

/-! ## Claims about `_invoke_with_retry` -/

/-- Claim C2 — counterexample.  With every call failing with a message
containing "429", `_invoke_with_retry` makes 4 calls (3 guarded loop
iterations plus one final unguarded call) with sleeps of 1 s, 2 s and
4 s, not "exactly up to 3 calls" with delays "1 second then 2 seconds"
as the claim states. -/
theorem retry_429_counterexample :
    (invokeWithRetry (fun _ => Outcome.err "429 Too Many Requests")).callCount = 4 ∧
    (invokeWithRetry (fun _ => Outcome.err "429 Too Many Requests")).sleeps = [1, 2, 4] ∧
    ¬((invokeWithRetry (fun _ => Outcome.err "429 Too Many Requests")).callCount ≤ 3 ∧
      (invokeWithRetry (fun _ => Outcome.err "429 Too Many Requests")).sleeps = [1, 2]) := by
  decide

/-- Claim C2 (amended): for every failure sequence in which the three
loop calls each raise a rate-limit-pattern error, `_invoke_with_retry`
makes exactly 4 calls, sleeping 1 s, 2 s and 4 s between them, and
surfaces the outcome of the 4th (unguarded) call as-is. -/
theorem retry_rateLimit_four_calls (outcome : Nat → Outcome)
    (h : ∀ i, i < 3 → ∃ m, outcome i = Outcome.err m ∧ isRateLimitMsg m = true) :
    invokeWithRetry outcome =
      { result := outcome 3, callCount := 4, sleeps := [1, 2, 4] } := by
  show retryLoop outcome 0 3 = _
  rw [retryLoop_allRate outcome 3 0 (fun j hj => by simpa using h j hj)]
  norm_num
  decide

/-- Claim C2 — witness for the amended theorem. -/
theorem retry_rateLimit_four_calls_witness :
    invokeWithRetry (fun _ => Outcome.err "rate limit hit") =
      { result := Outcome.err "rate limit hit", callCount := 4, sleeps := [1, 2, 4] } :=
  retry_rateLimit_four_calls (fun _ => Outcome.err "rate limit hit")
    (fun i _ => ⟨"rate limit hit", rfl, by decide⟩)

/-- Claim C6 (confirmed): a failure whose stringified message matches
none of the rate-limit patterns is propagated the moment it occurs: if
the first `k` calls (k < 3) raised rate-limit errors and call `k` raises
a non-rate-limit error, the wrapper surfaces that error having made
exactly `k + 1` calls, with no sleep after the failing call (only the
`k` rate-limit sleeps that preceded it). -/
theorem retry_other_error_propagates (outcome : Nat → Outcome) (k : Nat) (m : String)
    (hk : k < 3)
    (hbefore : ∀ j, j < k → ∃ mj, outcome j = Outcome.err mj ∧ isRateLimitMsg mj = true)
    (hm : outcome k = Outcome.err m) (hnr : isRateLimitMsg m = false) :
    invokeWithRetry outcome =
      { result := Outcome.err m, callCount := k + 1,
        sleeps := (List.range k).map (fun j => 2 ^ j) } := by
  show retryLoop outcome 0 3 = _
  rw [retryLoop_stopsOther outcome k m 3 0 hk
    (fun j hj => by simpa using hbefore j hj) (by simpa using hm) hnr]
  simp

/-- Claim C6 — witness: a first-call "invalid argument" failure is
propagated immediately, after exactly one call and no sleep. -/
theorem retry_other_error_propagates_witness :
    invokeWithRetry (fun _ => Outcome.err "400 invalid argument") =
      { result := Outcome.err "400 invalid argument", callCount := 1, sleeps := [] } := by
  have := retry_other_error_propagates (fun _ => Outcome.err "400 invalid argument") 0
    "400 invalid argument" (by omega) (fun j hj => absurd hj (by omega)) rfl (by decide)
  simpa using this

/-! ## Claims about the interview websocket state machine -/

/-- Claim C1 — counterexample.  With an always-successful LLM oracle and
5 non-empty inbound user transcripts, the outbound stream contains 8
`ai_response` events and 2 `interview_end` events (the `>= 5` check
fires again on the 5th message, since the greeting already counted as
question 1), not the claimed 6 and 1. -/
theorem interview_five_messages_counterexample :
    countAi (runSession (fun _ => some "ok") "" ["a", "b", "c", "d", "e"]).2 = 8 ∧
    countEnd (runSession (fun _ => some "ok") "" ["a", "b", "c", "d", "e"]).2 = 2 ∧
    ¬(countAi (runSession (fun _ => some "ok") "" ["a", "b", "c", "d", "e"]).2 = 6 ∧
      countEnd (runSession (fun _ => some "ok") "" ["a", "b", "c", "d", "e"]).2 = 1) := by
  decide

/-- Claim C1 (amended): starting from a fresh connection whose greeting
succeeded, after exactly 4 non-empty inbound user-transcript messages
the outbound stream contains exactly 6 `ai_response` events (1 greeting
reply plus 4 answer replies, the 4th inbound message yielding two
replies: the normal reply and the closing reply) followed by exactly one
`interview_end` event, which is the last event. -/
theorem interview_four_messages_events (f : List Turn → String) (sys m1 m2 m3 m4 : String)
    (h1 : strip m1 ≠ "") (h2 : strip m2 ≠ "") (h3 : strip m3 ≠ "") (h4 : strip m4 ≠ "") :
    countAi (runSession (fun h => some (f h)) sys [m1, m2, m3, m4]).2 = 6 ∧
    countEnd (runSession (fun h => some (f h)) sys [m1, m2, m3, m4]).2 = 1 ∧
    (runSession (fun h => some (f h)) sys [m1, m2, m3, m4]).2.getLast? =
      some WsEvent.interviewEnd := by
  simp [runSession, doGreeting, handleMsg, h1, h2, h3, h4, countAi, countEnd,
    isAiResponse, isInterviewEnd, List.filter]

/-- Claim C1 — witness for the amended theorem. -/
theorem interview_four_messages_events_witness :
    countAi (runSession (fun _ => some "ok") "" ["a", "b", "c", "d"]).2 = 6 ∧
    countEnd (runSession (fun _ => some "ok") "" ["a", "b", "c", "d"]).2 = 1 ∧
    (runSession (fun _ => some "ok") "" ["a", "b", "c", "d"]).2.getLast? =
      some WsEvent.interviewEnd :=
  interview_four_messages_events (fun _ => "ok") "" "a" "b" "c" "d"
    (by decide) (by decide) (by decide) (by decide)

/-- Claim C7 (confirmed): an inbound `user_transcript` whose transcript
strips to the empty string is silently ignored: the handler returns the
state unchanged (no turn appended, question counter unchanged) and emits
no event, for every LLM oracle (so no LLM call can influence the
result). -/
theorem blank_transcript_ignored (llm : List Turn → Option String) (st : IState) (t : String)
    (h : strip t = "") : handleMsg llm st t = (st, []) := by
  simp [handleMsg, h]

/-- Claim C7 — witness. -/
theorem blank_transcript_ignored_witness :
    handleMsg (fun _ => none) ⟨[], 0⟩ "   " = (⟨[], 0⟩, []) :=
  blank_transcript_ignored (fun _ => none) ⟨[], 0⟩ "   " (by decide)

/-! ## Claims about the résumé segmenter -/

/-- Claim C3 (confirmed): a line registers as a section heading only if
one of that section's patterns matches at the start of the stripped line
(case-insensitively) and the stripped line is shorter than 60
characters; a stripped line of 60 or more characters never switches the
cursor (it is treated as ordinary content), and a matched heading line
is itself not appended to any section's accumulated text. -/
theorem heading_requires_short_line (line : List Char) (cur : ResumeSec) (acc : SectionAcc) :
    (∀ sec, headingMatch (stripL line) = some sec →
      (patsFor sec).any (fun p => matchPat p (stripL line)) = true ∧
        (stripL line).length < 60) ∧
    (60 ≤ (stripL line).length →
      walkStep (cur, acc) line = (cur, acc.push cur (stripL line))) ∧
    (∀ sec, headingMatch (stripL line) = some sec → walkStep (cur, acc) line = (sec, acc)) := by
  have key : ∀ sec, headingMatch (stripL line) = some sec →
      (patsFor sec).any (fun p => matchPat p (stripL line)) = true ∧
        (stripL line).length < 60 := by
    intro sec h
    unfold headingMatch at h
    split_ifs at h with c1 c2 c3 c4
    · injection h with h
      subst h
      exact ⟨(Bool.and_eq_true_iff.mp c1).1, of_decide_eq_true (Bool.and_eq_true_iff.mp c1).2⟩
    · injection h with h
      subst h
      exact ⟨(Bool.and_eq_true_iff.mp c2).1, of_decide_eq_true (Bool.and_eq_true_iff.mp c2).2⟩
    · injection h with h
      subst h
      exact ⟨(Bool.and_eq_true_iff.mp c3).1, of_decide_eq_true (Bool.and_eq_true_iff.mp c3).2⟩
    · injection h with h
      subst h
      exact ⟨(Bool.and_eq_true_iff.mp c4).1, of_decide_eq_true (Bool.and_eq_true_iff.mp c4).2⟩
  refine ⟨key, ?_, ?_⟩
  · intro hlen
    have hnone : headingMatch (stripL line) = none := by
      cases hh : headingMatch (stripL line) with
      | none => rfl
      | some sec => exact absurd (key sec hh).2 (by omega)
    simp [walkStep, hnone]
  · intro sec h
    simp [walkStep, h]

/-- Claim C3 — witness: the line "Skills" is a heading; it switches the
cursor and is not appended. -/
theorem heading_requires_short_line_witness :
    walkStep (ResumeSec.header, SectionAcc.empty) "Skills".data =
      (ResumeSec.skills, SectionAcc.empty) :=
  (heading_requires_short_line "Skills".data ResumeSec.header SectionAcc.empty).2.2
    ResumeSec.skills (by decide)

theorem isEmpty_eq_nil : ∀ l : List Char, l.isEmpty = true → l = [] := by
  intro l hl
  cases l with
  | nil => rfl
  | cons c cs => simp [List.isEmpty] at hl

/-- Claim C4 (confirmed): the skills extraction splits the accumulated
skills text on runs of the delimiters `, • · | ;` and newline, trims
each fragment and keeps it iff it is non-empty and shorter than 50
characters, preserving order and duplicates (`skillsSpec` spells that
out on strings); the full parser's `skills` field is exactly that
extraction of the accumulated skills-section text; and the concrete
input yields `["Python", "Go", "Rust", "C++"]` in order. -/
theorem skills_split_spec :
    (∀ text : List Char, extractSkills text = skillsSpec text) ∧
    (∀ raw : String, (parseResumeText raw).skills =
      skillsSpec (stripL (List.intercalate ['\n']
        ((walkLines (splitOnNl (stripL raw.data))).2.skills)))) ∧
    (parseResumeText "Skills\nPython, Go; Rust|C++").skills =
      ["Python", "Go", "Rust", "C++"] := by
  have hpred : ∀ s : List Char,
      (!s.isEmpty && decide (s.length < 50)) =
        decide (String.mk s ≠ "" ∧ (String.mk s).length < 50) := by
    intro s
    cases s with
    | nil => rfl
    | cons c cs =>
      have hne : String.mk (c :: cs) ≠ "" := by
        intro hc
        simpa using congrArg String.data hc
      simp [hne, String.length]
  have main : ∀ text : List Char, extractSkills text = skillsSpec text := by
    intro text
    unfold extractSkills skillsSpec
    generalize splitDelimRuns text = l
    induction l with
    | nil => rfl
    | cons a t ih =>
      simp only [List.map_cons, List.filter_cons]
      rw [hpred (stripL a)]
      by_cases hcond : String.mk (stripL a) ≠ "" ∧ (String.mk (stripL a)).length < 50
      · rw [if_pos (decide_eq_true hcond), if_pos (decide_eq_true hcond)]
        simp [ih]
      · rw [if_neg (fun hc => hcond (of_decide_eq_true hc)),
          if_neg (fun hc => hcond (of_decide_eq_true hc))]
        exact ih
  refine ⟨main, ?_, by decide⟩
  intro raw
  have hsk : (parseResumeText raw).skills =
      (if (stripL (List.intercalate ['\n']
            ((walkLines (splitOnNl (stripL raw.data))).2.skills))).isEmpty
       then []
       else extractSkills (stripL (List.intercalate ['\n']
            ((walkLines (splitOnNl (stripL raw.data))).2.skills)))) := rfl
  rw [hsk]
  split
  · next hemp =>
    rw [isEmpty_eq_nil _ hemp]
    rfl
  · exact main _

/-- Claim C5 (confirmed): when the stripped non-empty-line subsequence
has at least two entries, the headline is the second of them verbatim;
with fewer than two it is the empty string; and the two-line example
yields exactly "Senior Engineer". -/
theorem headline_second_nonEmpty (raw : String) :
    (2 ≤ (nonEmptyLines raw).length →
      (parseResumeText raw).headline = String.mk ((nonEmptyLines raw).getD 1 [])) ∧
    ((nonEmptyLines raw).length < 2 → (parseResumeText raw).headline = "") ∧
    (parseResumeText "Jane Doe\nSenior Engineer\nExperienced person.").headline =
      "Senior Engineer" := by
  have hh : (parseResumeText raw).headline =
      (if 2 ≤ (nonEmptyLines raw).length then String.mk ((nonEmptyLines raw).getD 1 [])
       else "") := rfl
  refine ⟨?_, ?_, by decide⟩
  · intro h
    rw [hh, if_pos h]
  · intro h
    rw [hh, if_neg (by omega)]

/-- Claim C5 — witness. -/
theorem headline_second_nonEmpty_witness :
    (parseResumeText "Jane Doe\nSenior Engineer\nExperienced person.").headline =
      String.mk ((nonEmptyLines "Jane Doe\nSenior Engineer\nExperienced person.").getD 1 []) :=
  (headline_second_nonEmpty "Jane Doe\nSenior Engineer\nExperienced person.").1 (by decide)

/-- Claim C8 (confirmed): `_parse_resume_text` is, in this embedding, a
total function: every input yields a structurally complete
`ResumeSections` value with all five fields present, and it is pure and
deterministic (equal inputs give equal outputs). -/
theorem parse_total_deterministic (raw raw' : String) :
    (∃ h b sk e ed, parseResumeText raw = ⟨h, b, sk, e, ed⟩) ∧
    (raw = raw' → parseResumeText raw = parseResumeText raw') :=
  ⟨⟨_, _, _, _, _, rfl⟩, fun h => by rw [h]⟩

/-- Claim C8 — witness. -/
theorem parse_total_deterministic_witness :
    parseResumeText "Jane Doe" = parseResumeText "Jane Doe" :=
  (parse_total_deterministic "Jane Doe" "Jane Doe").2 rfl

/-! ## Claims about `tailor_resume` failure handling -/

/-- Claim C9 (confirmed): if the LLM call of `tailor_resume` fails
(after retries) or its processed content is empty, the application
record is left exactly as the triggering endpoint set it: status stays
"processing", `tailored_resume` stays empty, no error is recorded, and
the operation never sets status to "saved"; the startup reset
`_reset_stuck_processing` is what maps such a stuck row back to
"saved". -/
theorem tailor_failure_keeps_processing (latexTemplate : String) (a : ApplicationRec)
    (llmResult : Option String) (hempty : a.tailored_resume = "")
    (hfail : llmResult = none ∨ ∃ r, llmResult = some r ∧ postprocessContent r = "") :
    tailorResumeUpdate latexTemplate llmResult (generateResumeMark a) = generateResumeMark a ∧
    (tailorResumeUpdate latexTemplate llmResult (generateResumeMark a)).status = "processing" ∧
    (tailorResumeUpdate latexTemplate llmResult (generateResumeMark a)).tailored_resume = "" ∧
    (tailorResumeUpdate latexTemplate llmResult (generateResumeMark a)).status ≠ "saved" ∧
    resetStuckProcessing (tailorResumeUpdate latexTemplate llmResult (generateResumeMark a)) =
      { tailorResumeUpdate latexTemplate llmResult (generateResumeMark a) with
        status := "saved" } := by
  have hupd : tailorResumeUpdate latexTemplate llmResult (generateResumeMark a) =
      generateResumeMark a := by
    rcases hfail with h | ⟨r, hr, hpost⟩
    · simp [tailorResumeUpdate, h]
    · simp [tailorResumeUpdate, hr, hpost]
  rw [hupd]
  refine ⟨rfl, rfl, hempty, ?_, ?_⟩
  · intro hc
    simp [generateResumeMark] at hc
  · simp [resetStuckProcessing, generateResumeMark, hempty]

/-- Claim C9 — witness. -/
theorem tailor_failure_keeps_processing_witness :
    tailorResumeUpdate "%% CONTENT_PLACEHOLDER" none (generateResumeMark ⟨"saved", ""⟩) =
      generateResumeMark ⟨"saved", ""⟩ :=
  (tailor_failure_keeps_processing "%% CONTENT_PLACEHOLDER" ⟨"saved", ""⟩ none rfl
    (Or.inl rfl)).1

/-! ## Claims about registration and job-match notifications -/

/-- Claim C10 — counterexample.  `register` stores the requested role
verbatim, with no validation, so a request may create a user with role
"seeker"; once that user's profile lists an overlapping skill, posting a
job does create a job-match notification for them — contradicting both
the claim's premise (register only creates "user" or "hr") and its
conclusion (registered users are never notified). -/
theorem register_seeker_counterexample :
    (registerUser "Eve" "eve@example.com" "seeker").role = "seeker" ∧
    jobMatchNotified ["Python"]
      (updateSkills (registerUser "Eve" "eve@example.com" "seeker") ["python"]) = true := by
  decide

/-- Claim C10 (amended): `hr_post_job` notifies only users whose role is
exactly "seeker", and `register` stores the requested role verbatim
(default "user"); hence every user registered with any role other than
"seeker" — in particular the documented roles "user" and "hr" — never
receives a job-match notification, whatever their skills and whatever
the job's tags. -/
theorem nonSeeker_never_notified (jobTags skills : List String) (name email role : String)
    (hrole : role ≠ "seeker") :
    jobMatchNotified jobTags (updateSkills (registerUser name email role) skills) = false := by
  have hb : (role == "seeker") = false := beq_eq_false_iff_ne.mpr hrole
  simp [jobMatchNotified, updateSkills, registerUser, hb]

/-- Claim C10 — witness for the amended theorem. -/
theorem nonSeeker_never_notified_witness :
    jobMatchNotified ["python"]
      (updateSkills (registerUser "Bob" "bob@example.com" "hr") ["python"]) = false :=
  nonSeeker_never_notified ["python"] ["python"] "Bob" "bob@example.com" "hr" (by decide)

end Kanso
